import Mathlib

/-!
Verification of the voice-activated-servo service
(`src/src/models/service.py`) against its design specification.

The embedding below translates the service's command dispatch and
execution engine into Lean: configuration validation
(`Service.validate_config`), command-table construction
(`Service.reconfigure`), phrase matching and sequenced actuation
(`Service.handle_readings`), the audio cue (`Service.play_sound`) and the
invocation surface (`Service.do_command`).  External collaborators
(servo, audio subprocesses) are modelled by an environment of outcomes,
and the observable external actions of one dispatch are collected in an
event trace.
-/

namespace VoiceServo

/-- Protobuf `Value` as found in `config.attributes.fields` (a
`google.protobuf.Struct`).  Proto3 accessors (`number_value`,
`string_value`, `list_value`, `struct_value`) return the zero value of
their field when a different case is set; this is what the Python
protobuf API does and the service relies on it. -/
inductive PbValue where
  | numberValue (q : ℚ)
  | stringValue (s : String)
  | boolValue (b : Bool)
  | listValue (vs : List PbValue)
  | structValue (fs : List (String × PbValue))
  | nullValue

/-- `value.number_value`: the number, or `0` for any non-number value. -/
def PbValue.number_value : PbValue → ℚ
  | .numberValue q => q
  | _ => 0

/-- `value.string_value`: the string, or `""` for any non-string value. -/
def PbValue.string_value : PbValue → String
  | .stringValue s => s
  | _ => ""

/-- `value.list_value.values`: the element list, or `[]` for a non-list. -/
def PbValue.list_value : PbValue → List PbValue
  | .listValue vs => vs
  | _ => []

/-- `value.struct_value.fields`: the field list, or `[]` for a non-struct.
Struct fields are a map, so keys are unique; the list keeps the
iteration order. -/
def PbValue.struct_value : PbValue → List (String × PbValue)
  | .structValue fs => fs
  | _ => []

/-- `config.attributes.fields`, the raw configuration mapping. -/
structure ComponentConfig where
  fields : List (String × PbValue)

/-- Field lookup in `config.attributes.fields`; `none` models a missing
key (Python `k not in fields`). -/
def getField (cfg : ComponentConfig) (k : String) : Option PbValue :=
  (cfg.fields.find? (fun f => f.1 == k)).map Prod.snd

/-- The inner angle loop of `Service.validate_config` (lines 82-85): each
element is read through `number_value` and must lie in [0,180].  A raised
`ValueError` is modelled as `Except.error` carrying the message. -/
def validateAngles (phrase : String) : List PbValue → Except String Unit
  | [] => .ok ()
  | angle_value :: rest =>
    if ¬ (0 ≤ angle_value.number_value ∧ angle_value.number_value ≤ 180) then
      .error ("command angles for " ++ phrase ++ " must be integers between 0 and 180")
    else validateAngles phrase rest

/-- The command loop of `Service.validate_config` (lines 72-85).  The
`isinstance(phrase, str)` check can never fail, because Struct keys are
always strings (the empty string included).  A non-list value yields an
empty `list_value`, hence the cannot-be-empty error. -/
def validateCommands : List (String × PbValue) → Except String Unit
  | [] => .ok ()
  | (phrase, angles_value) :: rest =>
    if angles_value.list_value.isEmpty then
      .error ("command angles for " ++ phrase ++ " cannot be empty")
    else
      match validateAngles phrase angles_value.list_value with
      | .error e => .error e
      | .ok () => validateCommands rest

/-- `Service.validate_config` (lines 43-88): requires the `sensor`,
`servo` and `commands` fields, validates every command's angle list, and
returns `([sensor_name, servo_name], [])` as the dependency lists. -/
def validate_config (config : ComponentConfig) :
    Except String (List String × List String) :=
  if (getField config "sensor").isNone then .error "sensor is required"
  else if (getField config "servo").isNone then .error "servo is required"
  else if (getField config "commands").isNone then .error "commands is required"
  else
    let sensor_name := ((getField config "sensor").getD .nullValue).string_value
    let servo_name := ((getField config "servo").getD .nullValue).string_value
    let commands := ((getField config "commands").getD .nullValue).struct_value
    match validateCommands commands with
    | .error e => .error e
    | .ok () => .ok ([sensor_name, servo_name], [])

/-- Python `int()` on a real number: truncation toward zero. -/
def pyInt (q : ℚ) : ℤ := if 0 ≤ q then ⌊q⌋ else ⌈q⌉

/-- The command-table construction of `Service.reconfigure`
(lines 114-122): every angle value is coerced with `int(...)` and the
phrase-to-angles table is stored, preserving the struct's order. -/
def parse_commands (config : ComponentConfig) : List (String × List ℤ) :=
  (((getField config "commands").getD .nullValue).struct_value).map
    (fun f => (f.1, f.2.list_value.map (fun av => pyInt av.number_value)))

/-- ASCII case folding of one code point; models Python `str.lower` on
the ASCII range (all phrases and inputs in the spec are ASCII). -/
def lowerCode (n : Nat) : Nat := if 65 ≤ n ∧ n ≤ 90 then n + 32 else n

/-- A string's code points after `str.lower`. -/
def pyLower (s : String) : List Nat := s.data.map (fun c => lowerCode c.toNat)

/-- Python substring containment `needle in haystack`. -/
def containsSub (n : List Nat) (h : List Nat) : Bool :=
  n.isPrefixOf h ||
    match h with
    | [] => false
    | _ :: t => containsSub n t

/-- The match test of `Service.handle_readings` (line 150):
`phrase.lower() in readings.lower()`. -/
def phraseMatches (phrase readings : String) : Bool :=
  containsSub (pyLower phrase) (pyLower readings)

/-- Observable external actions of one dispatch invocation. -/
inductive Event where
  | move (angle : ℤ)
  | sleep
  | setVolume
  | playAsset
deriving DecidableEq

/-- Whether the event is a servo move. -/
def Event.isMove : Event → Bool
  | .move _ => true
  | _ => false

/-- Whether the event is one of the audio cue's subprocess actions. -/
def Event.isAudio : Event → Bool
  | .setVolume => true
  | .playAsset => true
  | _ => false

/-- Collaborator outcomes: the result of the k-th `servo.move` call of
the invocation, and of the `amixer` and `aplay` subprocess calls of the
j-th matched phrase's audio cue.  `.error e` models a raised exception
(for the subprocesses, a nonzero exit under `check=True`). -/
structure Env where
  move : Nat → Except String Unit
  amixer : Nat → Except String Unit
  aplay : Nat → Except String Unit

/-- The environment in which every collaborator call succeeds. -/
def envOk : Env := ⟨fun _ => .ok (), fun _ => .ok (), fun _ => .ok ()⟩

/-- An environment whose very first servo move raises. -/
def envFail : Env := ⟨fun _ => .error "boom", fun _ => .ok (), fun _ => .ok ()⟩

/-- The dict returned by `Service.play_sound`. -/
structure SoundResult where
  status : String
  message : String
deriving DecidableEq

/-- `Service.play_sound` (lines 164-182) for the j-th matched phrase:
runs `amixer` then `aplay`; both calls sit in one `try`, so a failing
`amixer` skips `aplay`, and every exception is caught and converted to a
structured error dict — the coroutine never propagates an error.
Returns the subprocess events that actually ran, with the result. -/
def play_sound (env : Env) (j : Nat) : List Event × SoundResult :=
  match env.amixer j with
  | .error e => ([.setVolume], ⟨"error", "Command failed: " ++ e⟩)
  | .ok () =>
    match env.aplay j with
    | .error e => ([.setVolume, .playAsset], ⟨"error", "Command failed: " ++ e⟩)
    | .ok () => ([.setVolume, .playAsset], ⟨"success", "Sound played"⟩)

/-- The angle loop of `Service.handle_readings` (lines 153-156): each
angle is commanded with `await self.servo.move(angle)` and followed by
the 1-second settle delay `await asyncio.sleep(1)`.  A move failure is
not caught: the loop stops there (the failing call is recorded, the
sleep and remaining angles are not reached).  Returns the trace, the
next move-call index, and the propagated error if any. -/
def moveLoop (env : Env) (k : Nat) : List ℤ → List Event × Nat × Option String
  | [] => ([], k, none)
  | angle :: rest =>
    match env.move k with
    | .error e => ([.move angle], k + 1, some e)
    | .ok () =>
      match moveLoop env (k + 1) rest with
      | (tr, k2, err) => (.move angle :: .sleep :: tr, k2, err)

/-- One matched phrase's execution (lines 151-157).
`sound_promise = self.play_sound()` only CREATES a coroutine — it is
neither awaited nor wrapped in a task — so its subprocess calls run only
when `await sound_promise` executes, after the whole angle loop.  If a
move raises, the `await` is never reached and no audio action occurs. -/
def runPhrase (env : Env) (k j : Nat) (angles : List ℤ) :
    List Event × Nat × Option String :=
  match moveLoop env k angles with
  | (tr, k2, some e) => (tr, k2, some e)
  | (tr, k2, none) => (tr ++ (play_sound env j).1, k2, none)

/-- The phrase loop of `Service.handle_readings` (lines 148-158):
phrases are tried in the table's stored order; each matching phrase's
sequence runs to completion before the next phrase is tried, and the
phrase is appended to `commands_heard` after its `await sound_promise`.
A move failure propagates, discarding the accumulated list. -/
def phraseLoop (env : Env) (k j : Nat) (readings : String) :
    List (String × List ℤ) → List Event × List String × Option String
  | [] => ([], [], none)
  | (phrase, angles) :: rest =>
    if phraseMatches phrase readings then
      match runPhrase env k j angles with
      | (tr, _, some e) => (tr, [], some e)
      | (tr, k2, none) =>
        match phraseLoop env k2 (j + 1) readings rest with
        | (tr2, heard, err2) => (tr ++ tr2, phrase :: heard, err2)
    else phraseLoop env k j readings rest

/-- The mapping returned by `handle_readings` and `do_command`; `none`
in `voice_commands` or `heard` models a key absent from the dict. -/
structure DispatchResult where
  status : String
  voice_commands : Option (List String)
  heard : Option String
deriving DecidableEq

/-- `Service.handle_readings` (lines 144-162).  `readings = none` models
Python `None`.  Returns the event trace together with either the result
dict or a propagated servo exception. -/
def handle_readings (env : Env) (commands : List (String × List ℤ)) :
    Option String → List Event × Except String DispatchResult
  | none => ([], .ok ⟨"no voice command heard", none, none⟩)
  | some r =>
    if r = "" then ([], .ok ⟨"no voice command heard", none, none⟩)
    else
      match phraseLoop env 0 0 r commands with
      | (tr, _, some e) => (tr, .error e)
      | (tr, heard, none) =>
        if heard.length > 0 then
          (tr, .ok ⟨"voice commands heard", some heard, some r⟩)
        else
          (tr, .ok ⟨"no voice commands heard", none, some r⟩)

/-- Values of the `do_command` request mapping. -/
inductive PyValue where
  | str (s : String)
  | bool (b : Bool)
  | num (q : ℚ)
  | pyNone

/-- Python truthiness, as used by `if command.get(...)`. -/
def truthy : PyValue → Bool
  | .str s => s != ""
  | .bool b => b
  | .num q => decide (q ≠ 0)
  | .pyNone => false

/-- `command.get(key)`: the stored value, or Python `None`
(`PyValue.pyNone`) when the key is absent. -/
def pyGet (request : List (String × PyValue)) (k : String) : PyValue :=
  ((request.find? (fun f => f.1 == k)).map Prod.snd).getD .pyNone

/-- The text argument handed to `handle_readings`: Python `None` maps to
`none`, a string to `some`.  On every reachable dispatch path the value
here is `None` or a string (a truthy forced text is a string, and the
sensor's `heard` reading is a string or missing). -/
def asReadings : PyValue → Option String
  | .str s => some s
  | _ => none

/-- `Service.do_command` (lines 129-142).  The branch tests are
truthiness tests on `command.get(...)`.  `sensorHeard` is
`(await self.sensor.get_readings()).get("heard")`, consulted only on the
listen branch.  Falling off the end of the Python function returns
`None`, modelled `.ok none`. -/
def do_command (env : Env) (commands : List (String × List ℤ))
    (sensorHeard : Option String) (request : List (String × PyValue)) :
    List Event × Except String (Option DispatchResult) :=
  if truthy (pyGet request "force_command") then
    match handle_readings env commands (asReadings (pyGet request "force_command")) with
    | (tr, r) => (tr, r.map some)
  else if truthy (pyGet request "listen_for_command") then
    match handle_readings env commands sensorHeard with
    | (tr, r) => (tr, r.map some)
  else ([], .ok none)

/-- Spec-side predicate for claim C2: some audio action appears in the
trace strictly before the first servo move. -/
def audioBeforeFirstMove (tr : List Event) : Bool :=
  (tr.takeWhile (fun e => ! e.isMove)).any (fun e => e.isAudio)

/-- The spec's running example table: `{"lights on": [90, 0]}`. -/
def cmdsLights : List (String × List ℤ) := [("lights on", [90, 0])]

/-- The spec's running example input text. -/
def textLights : String := "please turn the lights on now"

/-- A well-formed configuration whose only command is
`{"lights on": [90, 0]}`. -/
def cfgLights : ComponentConfig :=
  ⟨[("sensor", .stringValue "s"), ("servo", .stringValue "v"),
    ("commands", .structValue
      [("lights on", .listValue [.numberValue 90, .numberValue 0])])]⟩

/-- A configuration carrying a non-numeric angle element (the protobuf
string value `"hello"`). -/
def cfgNonNum : ComponentConfig :=
  ⟨[("sensor", .stringValue "s"), ("servo", .stringValue "v"),
    ("commands", .structValue [("x", .listValue [.stringValue "hello"])])]⟩

/-- A configuration with an out-of-range angle (200). -/
def cfgBad : ComponentConfig :=
  ⟨[("sensor", .stringValue "s"), ("servo", .stringValue "v"),
    ("commands", .structValue [("x", .listValue [.numberValue 200])])]⟩

/-- A configuration whose commands mapping uses the empty string as a
phrase key. -/
def cfgEmptyPhrase : ComponentConfig :=
  ⟨[("sensor", .stringValue "s"), ("servo", .stringValue "v"),
    ("commands", .structValue [("", .listValue [.numberValue 90])])]⟩

/-- An environment whose audio collaborators may fail while every servo
move succeeds. -/
def envAudio (vol pl : Nat → Except String Unit) : Env :=
  ⟨fun _ => .ok (), vol, pl⟩

/-- A failing `amixer` outcome for every audio cue. -/
def volFail : Nat → Except String Unit := fun _ => .error "amixer failed"

/-- An always-succeeding subprocess outcome. -/
def okCalls : Nat → Except String Unit := fun _ => .ok ()

/-- The trace of a fully successful angle sequence: each move followed
by the settle delay. -/
def okTrace : List ℤ → List Event
  | [] => []
  | a :: t => .move a :: .sleep :: okTrace t

/-! ## Helper lemmas -/

/-- The empty needle is a substring of every haystack. -/
theorem containsSub_nil (h : List Nat) : containsSub [] h = true := by
  unfold containsSub
  cases h <;> simp [List.isPrefixOf]

/-- The angle loop emits no audio action. -/
theorem moveLoop_no_audio (env : Env) (angles : List ℤ) :
    ∀ (k : Nat), ∀ ev ∈ (moveLoop env k angles).1, ev.isAudio = false := by
  induction angles with
  | nil => intro k ev h; simp [moveLoop] at h
  | cons a t ih =>
    intro k ev h
    unfold moveLoop at h
    cases hm : env.move k with
    | error e => rw [hm] at h; simp at h; subst h; rfl
    | ok u =>
      cases u
      rw [hm] at h
      rcases ht : moveLoop env (k + 1) t with ⟨tr, k2, err⟩
      rw [ht] at h
      simp at h
      rcases h with h | h | h
      · subst h; rfl
      · subst h; rfl
      · exact ih (k + 1) ev (by rw [ht]; exact h)

/-- The audio cue emits no servo move. -/
theorem play_sound_no_move (env : Env) (j : Nat) :
    ∀ ev ∈ (play_sound env j).1, ev.isMove = false := by
  intro ev h
  unfold play_sound at h
  cases ha : env.amixer j with
  | error e => rw [ha] at h; simp at h; subst h; rfl
  | ok u =>
    cases u
    rw [ha] at h
    cases hb : env.aplay j with
    | error e => rw [hb] at h; simp at h; rcases h with h | h <;> subst h <;> rfl
    | ok u2 => cases u2; rw [hb] at h; simp at h; rcases h with h | h <;> subst h <;> rfl

/-- The audio cue's events contain no move, as a filter equation. -/
theorem play_sound_filter_move (env : Env) (j : Nat) :
    (play_sound env j).1.filter Event.isMove = [] := by
  unfold play_sound
  cases env.amixer j with
  | error e => rfl
  | ok u => cases u; cases env.aplay j with
    | error e => rfl
    | ok u2 => cases u2; rfl

/-- With an always-succeeding servo, the angle loop runs every angle in
order, each followed by the settle delay, and raises nothing. -/
theorem moveLoop_envOk_eq (angles : List ℤ) :
    ∀ (k : Nat), moveLoop envOk k angles = (okTrace angles, k + angles.length, none) := by
  induction angles with
  | nil => intro k; rfl
  | cons a t ih =>
    intro k
    unfold moveLoop
    show (match moveLoop envOk (k + 1) t with
      | (tr, k2, err) => (Event.move a :: Event.sleep :: tr, k2, err)) = _
    rw [ih (k + 1)]
    simp [okTrace]
    omega

/-- With an always-succeeding servo, one phrase's execution is the full
angle trace followed by the audio cue's two actions. -/
theorem runPhrase_envOk_eq (k j : Nat) (angles : List ℤ) :
    runPhrase envOk k j angles =
      (okTrace angles ++ [.setVolume, .playAsset], k + angles.length, none) := by
  unfold runPhrase
  rw [moveLoop_envOk_eq]
  rfl

/-- Unfolding equation: a matching head phrase whose sequence succeeds
runs its trace, records the phrase, and continues with the rest. -/
theorem phraseLoop_cons_match (env : Env) (k j : Nat) (text p : String)
    (as : List ℤ) (rest : List (String × List ℤ)) (tr tr2 : List Event) (k2 : Nat)
    (heard : List String) (err2 : Option String)
    (hm : phraseMatches p text = true) (hr : runPhrase env k j as = (tr, k2, none))
    (hrest : phraseLoop env k2 (j + 1) text rest = (tr2, heard, err2)) :
    phraseLoop env k j text ((p, as) :: rest) = (tr ++ tr2, p :: heard, err2) := by
  show (if phraseMatches p text = true then
      match runPhrase env k j as with
      | (tr, _, some e) => (tr, [], some e)
      | (tr, k2, none) =>
        match phraseLoop env k2 (j + 1) text rest with
        | (tr2, heard, err2) => (tr ++ tr2, p :: heard, err2)
    else phraseLoop env k j text rest) = (tr ++ tr2, p :: heard, err2)
  rw [if_pos hm, hr]
  show (match phraseLoop env k2 (j + 1) text rest with
    | (tr2, heard, err2) => (tr ++ tr2, p :: heard, err2)) = (tr ++ tr2, p :: heard, err2)
  rw [hrest]

/-- Unfolding equation: a matching head phrase whose sequence raises
stops the loop there, discarding the heard list. -/
theorem phraseLoop_cons_err (env : Env) (k j : Nat) (text p : String)
    (as : List ℤ) (rest : List (String × List ℤ)) (tr : List Event) (k2 : Nat) (e : String)
    (hm : phraseMatches p text = true) (hr : runPhrase env k j as = (tr, k2, some e)) :
    phraseLoop env k j text ((p, as) :: rest) = (tr, [], some e) := by
  show (if phraseMatches p text = true then
      match runPhrase env k j as with
      | (tr, _, some e) => (tr, [], some e)
      | (tr, k2, none) =>
        match phraseLoop env k2 (j + 1) text rest with
        | (tr2, heard, err2) => (tr ++ tr2, p :: heard, err2)
    else phraseLoop env k j text rest) = (tr, [], some e)
  rw [if_pos hm, hr]

/-- Unfolding equation: a non-matching head phrase is skipped. -/
theorem phraseLoop_cons_skip (env : Env) (k j : Nat) (text p : String)
    (as : List ℤ) (rest : List (String × List ℤ))
    (hm : phraseMatches p text = false) :
    phraseLoop env k j text ((p, as) :: rest) = phraseLoop env k j text rest := by
  show (if phraseMatches p text = true then
      match runPhrase env k j as with
      | (tr, _, some e) => (tr, [], some e)
      | (tr, k2, none) =>
        match phraseLoop env k2 (j + 1) text rest with
        | (tr2, heard, err2) => (tr ++ tr2, p :: heard, err2)
    else phraseLoop env k j text rest) = phraseLoop env k j text rest
  rw [if_neg (by simp [hm])]

/-- Unfolding equation: with non-empty text and a raising phrase loop,
the dispatch propagates the exception. -/
theorem handle_readings_err (env : Env) (cmds : List (String × List ℤ))
    (r : String) (tr : List Event) (heard : List String) (e : String)
    (h : ¬ r = "") (hp : phraseLoop env 0 0 r cmds = (tr, heard, some e)) :
    handle_readings env cmds (some r) = (tr, .error e) := by
  show (if r = "" then
      (([], Except.ok (DispatchResult.mk "no voice command heard" none none)) :
        List Event × Except String DispatchResult)
    else
      match phraseLoop env 0 0 r cmds with
      | (tr, _, some e) => (tr, Except.error e)
      | (tr, heard, none) =>
        if heard.length > 0 then
          (tr, Except.ok (DispatchResult.mk "voice commands heard" (some heard) (some r)))
        else
          (tr, Except.ok (DispatchResult.mk "no voice commands heard" none (some r)))) =
    (tr, Except.error e)
  rw [if_neg h, hp]

/-- Unfolding equation: with non-empty text and a non-raising phrase
loop, the dispatch reports according to the heard list. -/
theorem handle_readings_ok (env : Env) (cmds : List (String × List ℤ))
    (r : String) (tr : List Event) (heard : List String)
    (h : ¬ r = "") (hp : phraseLoop env 0 0 r cmds = (tr, heard, none)) :
    handle_readings env cmds (some r) =
      (if heard.length > 0 then
        (tr, .ok ⟨"voice commands heard", some heard, some r⟩)
      else
        (tr, .ok ⟨"no voice commands heard", none, some r⟩)) := by
  show (if r = "" then
      (([], Except.ok (DispatchResult.mk "no voice command heard" none none)) :
        List Event × Except String DispatchResult)
    else
      match phraseLoop env 0 0 r cmds with
      | (tr, _, some e) => (tr, Except.error e)
      | (tr, heard, none) =>
        if heard.length > 0 then
          (tr, Except.ok (DispatchResult.mk "voice commands heard" (some heard) (some r)))
        else
          (tr, Except.ok (DispatchResult.mk "no voice commands heard" none (some r)))) = _
  rw [if_neg h, hp]

/-- With an always-succeeding environment, the phrase loop hears exactly
the phrases whose lowercased form is contained in the lowercased text,
in table order, and raises nothing. -/
theorem phraseLoop_envOk (text : String) (cmds : List (String × List ℤ)) :
    ∀ (k j : Nat),
      (phraseLoop envOk k j text cmds).2.1 =
        (cmds.map Prod.fst).filter (fun p => phraseMatches p text) ∧
      (phraseLoop envOk k j text cmds).2.2 = none := by
  induction cmds with
  | nil => intro k j; exact ⟨rfl, rfl⟩
  | cons pc rest ih =>
    intro k j
    obtain ⟨p, as⟩ := pc
    by_cases hm : phraseMatches p text
    · have hih := ih (k + as.length) (j + 1)
      rcases hp : phraseLoop envOk (k + as.length) (j + 1) text rest with ⟨tr2, heard, err2⟩
      rw [hp] at hih
      rw [phraseLoop_cons_match envOk k j text p as rest _ _ _ _ _ hm
        (runPhrase_envOk_eq k j as) hp]
      simp only [List.map_cons, List.filter_cons, hm, if_true]
      exact ⟨congrArg (List.cons p) hih.1, hih.2⟩
    · have hih := ih k j
      rw [phraseLoop_cons_skip envOk k j text p as rest (by simpa using hm)]
      simp only [List.map_cons, List.filter_cons]
      refine ⟨?_, hih.2⟩
      rw [hih.1]
      simp [hm]

/-- Unfolding equation for the angle loop on a non-empty list. -/
theorem moveLoop_cons (env : Env) (k : Nat) (a : ℤ) (t : List ℤ) :
    moveLoop env k (a :: t) =
      (match env.move k with
      | .error e => ([.move a], k + 1, some e)
      | .ok _ =>
        match moveLoop env (k + 1) t with
        | (tr, k2, err) => (.move a :: .sleep :: tr, k2, err)) := rfl

/-- The angle loop depends only on the servo-move outcomes. -/
theorem moveLoop_congr (env1 env2 : Env) (h : env1.move = env2.move)
    (angles : List ℤ) : ∀ (k : Nat), moveLoop env1 k angles = moveLoop env2 k angles := by
  induction angles with
  | nil => intro k; rfl
  | cons a t ih =>
    intro k
    rw [moveLoop_cons, moveLoop_cons, h, ih (k + 1)]

/-- If the first `i` servo moves succeed and the next raises `e`, the
angle loop stops with exception `e` having issued exactly `i + 1` move
commands. -/
theorem moveLoop_fail (env : Env) (angles : List ℤ) :
    ∀ (k i : Nat) (e : String), i < angles.length →
      (∀ j, j < i → env.move (k + j) = .ok ()) →
      env.move (k + i) = .error e →
      (moveLoop env k angles).2.2 = some e ∧
      ((moveLoop env k angles).1.filter Event.isMove).length = i + 1 := by
  induction angles with
  | nil => intro k i e hi _ _; simp at hi
  | cons a t ih =>
    intro k i e hi hok hfail
    cases i with
    | zero =>
      have h0 : env.move k = .error e := by simpa using hfail
      rw [moveLoop_cons, h0]
      exact ⟨rfl, by simp [Event.isMove]⟩
    | succ i2 =>
      have h0 : env.move k = .ok () := by simpa using hok 0 (Nat.succ_pos i2)
      have hih := ih (k + 1) i2 e (by simpa using hi)
        (fun j hj => by
          have := hok (j + 1) (by omega)
          have harith : k + (j + 1) = k + 1 + j := by omega
          rw [harith] at this
          exact this)
        (by
          have harith : k + (i2 + 1) = k + 1 + i2 := by omega
          rw [harith] at hfail
          exact hfail)
      rw [moveLoop_cons, h0]
      rcases hm : moveLoop env (k + 1) t with ⟨tr, k2, err⟩
      rw [hm] at hih
      refine ⟨hih.1, ?_⟩
      show ((Event.move a :: Event.sleep :: tr).filter Event.isMove).length = i2 + 1 + 1
      have h2 : (tr.filter Event.isMove).length = i2 + 1 := hih.2
      simp [List.filter_cons, Event.isMove, h2]

/-- Every element accepted by the angle-validation loop lies in
[0,180]. -/
theorem validateAngles_ok_iff (phrase : String) (l : List PbValue) :
    validateAngles phrase l = .ok () ↔
      ∀ av ∈ l, 0 ≤ av.number_value ∧ av.number_value ≤ 180 := by
  induction l with
  | nil => simp [validateAngles]
  | cons av t ih =>
    by_cases hc : 0 ≤ av.number_value ∧ av.number_value ≤ 180
    · simp [validateAngles, hc, ih]
    · simp [validateAngles, hc]

/-- The command-validation loop accepts exactly the tables whose every
angle list is non-empty with all elements read in [0,180]. -/
theorem validateCommands_ok_iff (fs : List (String × PbValue)) :
    validateCommands fs = .ok () ↔
      ∀ pv ∈ fs, pv.2.list_value ≠ [] ∧
        ∀ av ∈ pv.2.list_value, 0 ≤ av.number_value ∧ av.number_value ≤ 180 := by
  induction fs with
  | nil => simp [validateCommands]
  | cons pv rest ih =>
    obtain ⟨p, v⟩ := pv
    by_cases he : v.list_value.isEmpty
    · have hnil : v.list_value = [] := by simpa using he
      simp [validateCommands, he, hnil]
    · have he2 : v.list_value.isEmpty = false := by simpa using he
      have hne : v.list_value ≠ [] := by
        intro hcon
        rw [hcon] at he2
        simp at he2
      cases hv : validateAngles p v.list_value with
      | error e =>
        have hna : ¬ ∀ av ∈ v.list_value,
            0 ≤ av.number_value ∧ av.number_value ≤ 180 := by
          rw [← validateAngles_ok_iff p v.list_value, hv]
          simp
        simp [validateCommands, he2, hv, hna]
      | ok u =>
        cases u
        have ha := (validateAngles_ok_iff p v.list_value).mp hv
        simp [validateCommands, he2, hv, ih, ha, hne]
        exact fun _ => ha

/-- A configuration accepted by `validate_config` has an accepted
command table. -/
theorem validate_config_ok_inv (cfg : ComponentConfig)
    (deps : List String × List String) (h : validate_config cfg = .ok deps) :
    validateCommands ((getField cfg "commands").getD .nullValue).struct_value = .ok () := by
  unfold validate_config at h
  split_ifs at h
  dsimp only at h
  cases hvc : validateCommands ((getField cfg "commands").getD .nullValue).struct_value with
  | error e => rw [hvc] at h; exact Except.noConfusion h
  | ok u => cases u; rfl

/-- Unfolding equation for one phrase's execution. -/
theorem runPhrase_eq (env : Env) (k j : Nat) (angles : List ℤ) :
    runPhrase env k j angles =
      (match moveLoop env k angles with
      | (tr, k2, some e) => (tr, k2, some e)
      | (tr, k2, none) => (tr ++ (play_sound env j).1, k2, none)) := rfl

/-- One phrase's execution in two environments with the same servo
outcomes: same move events, same next index and same exception. -/
theorem runPhrase_congr (env1 env2 : Env) (h : env1.move = env2.move)
    (k j : Nat) (angles : List ℤ) :
    ((runPhrase env1 k j angles).1.filter Event.isMove =
      (runPhrase env2 k j angles).1.filter Event.isMove) ∧
    (runPhrase env1 k j angles).2 = (runPhrase env2 k j angles).2 := by
  rw [runPhrase_eq env1, runPhrase_eq env2, ← moveLoop_congr env1 env2 h angles k]
  rcases moveLoop env1 k angles with ⟨tr, k2, err⟩
  cases err with
  | some e => exact ⟨rfl, rfl⟩
  | none =>
    refine ⟨?_, rfl⟩
    show (tr ++ (play_sound env1 j).1).filter Event.isMove =
      (tr ++ (play_sound env2 j).1).filter Event.isMove
    rw [List.filter_append, List.filter_append, play_sound_filter_move,
      play_sound_filter_move]

/-- The phrase loop in two environments with the same servo outcomes:
same move events, same heard list and same exception — the audio
outcomes influence neither actuation nor the result. -/
theorem phraseLoop_congr (env1 env2 : Env) (h : env1.move = env2.move)
    (text : String) (cmds : List (String × List ℤ)) :
    ∀ (k j : Nat),
      ((phraseLoop env1 k j text cmds).1.filter Event.isMove =
        (phraseLoop env2 k j text cmds).1.filter Event.isMove) ∧
      (phraseLoop env1 k j text cmds).2 = (phraseLoop env2 k j text cmds).2 := by
  induction cmds with
  | nil => intro k j; exact ⟨rfl, rfl⟩
  | cons pc rest ih =>
    intro k j
    obtain ⟨p, as⟩ := pc
    by_cases hm : phraseMatches p text
    · have hrc := runPhrase_congr env1 env2 h k j as
      rcases hr1 : runPhrase env1 k j as with ⟨tr1, k1, err1⟩
      rcases hr2 : runPhrase env2 k j as with ⟨tr2, k2, err2⟩
      rw [hr1, hr2] at hrc
      obtain ⟨htr0, h2⟩ := hrc
      have htr : tr1.filter Event.isMove = tr2.filter Event.isMove := htr0
      have hk : k1 = k2 := congrArg Prod.fst h2
      have herr : err1 = err2 := congrArg Prod.snd h2
      subst hk
      subst herr
      cases err1 with
      | some e =>
        rw [phraseLoop_cons_err env1 k j text p as rest tr1 k1 e hm hr1,
          phraseLoop_cons_err env2 k j text p as rest tr2 k1 e hm hr2]
        exact ⟨htr, rfl⟩
      | none =>
        have hihx := ih k1 (j + 1)
        rcases hp1 : phraseLoop env1 k1 (j + 1) text rest with ⟨trr1, hd1, er1⟩
        rcases hp2 : phraseLoop env2 k1 (j + 1) text rest with ⟨trr2, hd2, er2⟩
        rw [hp1, hp2] at hihx
        have hta : trr1.filter Event.isMove = trr2.filter Event.isMove := hihx.1
        have hh : hd1 = hd2 := congrArg Prod.fst hihx.2
        have he : er1 = er2 := congrArg Prod.snd hihx.2
        rw [phraseLoop_cons_match env1 k j text p as rest tr1 trr1 k1 hd1 er1 hm hr1 hp1,
          phraseLoop_cons_match env2 k j text p as rest tr2 trr2 k1 hd2 er2 hm hr2 hp2]
        refine ⟨?_, ?_⟩
        · show (tr1 ++ trr1).filter Event.isMove = (tr2 ++ trr2).filter Event.isMove
          rw [List.filter_append, List.filter_append, htr, hta]
        · show ((p :: hd1 : List String), er1) = ((p :: hd2 : List String), er2)
          rw [hh, he]
    · rw [phraseLoop_cons_skip env1 k j text p as rest (by simpa using hm),
        phraseLoop_cons_skip env2 k j text p as rest (by simpa using hm)]
      exact ih k j

/-- Truncation keeps a rational in [0,180] inside the integer range
[0,180]. -/
theorem pyInt_mem_range (q : ℚ) (h0 : 0 ≤ q) (h1 : q ≤ 180) :
    0 ≤ pyInt q ∧ pyInt q ≤ 180 := by
  unfold pyInt
  rw [if_pos h0]
  constructor
  · exact Int.le_floor.mpr (by exact_mod_cast h0)
  · have h180 : ⌊(180 : ℚ)⌋ = 180 := by decide
    calc ⌊q⌋ ≤ ⌊(180 : ℚ)⌋ := Int.floor_le_floor h1
      _ = 180 := h180

/-! ## Claims -/

/-- Claim C1, counterexample: on the configuration
`{"lights on": [90, 0]}` and input `"please turn the lights on now"`,
the dispatch result's status string is `"voice commands heard"`, which
differs from the claimed `"voice_commands heard"`. -/
theorem C1_cex :
    (handle_readings envOk cmdsLights (some textLights)).2 =
      .ok ⟨"voice commands heard", some ["lights on"], some textLights⟩ ∧
    "voice commands heard" ≠ "voice_commands heard" :=
  ⟨rfl, by decide⟩

/-- Claim C1 (amended): for the service configured with
`{"lights on": [90, 0]}`, dispatching `"please turn the lights on now"`
matches exactly `"lights on"`, commands the servo to 90 and then (after
the settle delay) to 0, and returns the mapping with status
`"voice commands heard"` (the code's actual status string),
`voice_commands = ["lights on"]` and the heard text. -/
theorem C1_dispatch_example :
    handle_readings envOk cmdsLights (some textLights) =
      ([.move 90, .sleep, .move 0, .sleep, .setVolume, .playAsset],
        .ok ⟨"voice commands heard", some ["lights on"], some textLights⟩) := rfl

/-- Claim C2, counterexample: in the example dispatch the trace contains
both audio actions and servo moves, yet no audio action occurs before
the first move — the audio cue's subprocess calls run only after the
full angle sequence, because `play_sound()` is a bare coroutine that is
first awaited after the loop. -/
theorem C2_cex :
    (handle_readings envOk cmdsLights (some textLights)).1 =
      [.move 90, .sleep, .move 0, .sleep, .setVolume, .playAsset] ∧
    audioBeforeFirstMove (handle_readings envOk cmdsLights (some textLights)).1 = false ∧
    ((handle_readings envOk cmdsLights (some textLights)).1.filter Event.isAudio).length = 2 :=
  ⟨rfl, rfl, rfl⟩

/-- Claim C2 (amended): the audio coroutine is created before the first
servo move but never scheduled as a task, so its two external actions
execute only when the coroutine is awaited, after the full angle
sequence finishes: one phrase's trace is the move trace followed by the
audio actions, with no audio among the moves and no move among the
audio actions. -/
theorem C2_audio_runs_after_moves :
    ∀ (env : Env) (k j : Nat) (angles : List ℤ),
      (moveLoop env k angles).2.2 = none →
      (runPhrase env k j angles).1 = (moveLoop env k angles).1 ++ (play_sound env j).1 ∧
      (∀ ev ∈ (moveLoop env k angles).1, ev.isAudio = false) ∧
      (∀ ev ∈ (play_sound env j).1, ev.isMove = false) := by
  intro env k j angles h
  refine ⟨?_, moveLoop_no_audio env angles k, play_sound_no_move env j⟩
  rw [runPhrase_eq]
  rcases hm : moveLoop env k angles with ⟨tr, k2, err⟩
  rw [hm] at h
  have herr : err = none := h
  subst herr
  rfl

/-- Witness for the amended C2 theorem at the example angle sequence. -/
theorem C2_witness :
    (moveLoop envOk 0 [90, 0]).2.2 = none ∧
    (runPhrase envOk 0 0 [90, 0]).1 =
      (moveLoop envOk 0 [90, 0]).1 ++ (play_sound envOk 0).1 :=
  ⟨rfl, (C2_audio_runs_after_moves envOk 0 0 [90, 0] rfl).1⟩

/-- Claim C3, counterexample: a dispatch invocation with no directive at
all returns Python `None` — no result mapping — rather than the claimed
degenerate `"no voice command heard"` mapping. -/
theorem C3_cex :
    do_command envOk cmdsLights (some "hello") [] = ([], .ok none) ∧
    (none : Option DispatchResult) ≠ some ⟨"no voice command heard", none, none⟩ :=
  ⟨rfl, by decide⟩

/-- Claim C3 (amended): for every request in which neither
`force_command` nor `listen_for_command` is truthy (in particular when
neither is present), `do_command` raises nothing, performs no external
action, and returns no result mapping (`None`). -/
theorem C3_no_directive_returns_none :
    ∀ (env : Env) (cmds : List (String × List ℤ)) (sh : Option String)
      (req : List (String × PyValue)),
      truthy (pyGet req "force_command") = false →
      truthy (pyGet req "listen_for_command") = false →
      do_command env cmds sh req = ([], .ok none) := by
  intro env cmds sh req hf hl
  simp [do_command, hf, hl]

/-- Witness for the amended C3 theorem: a request carrying only an
unrelated key. -/
theorem C3_witness :
    do_command envOk cmdsLights (some "hi") [("unrelated", .bool true)] =
      ([], .ok none) :=
  C3_no_directive_returns_none envOk cmdsLights (some "hi")
    [("unrelated", .bool true)] (by decide) (by decide)

/-- Claim C4: if the servo's move raises on the angle at index `i` of a
matched phrase's sequence (earlier moves succeeding), the exception is
not caught — the dispatch returns the error instead of a result mapping,
exactly `i + 1` move commands were issued (the remaining steps of the
phrase and all later phrases never run), and no audio action occurs
(the audio coroutine is never awaited). -/
theorem C4_move_failure_propagates :
    ∀ (env : Env) (text p : String) (angles : List ℤ)
      (post : List (String × List ℤ)) (i : Nat) (e : String),
      phraseMatches p text = true →
      text ≠ "" →
      i < angles.length →
      (∀ j, j < i → env.move j = .ok ()) →
      env.move i = .error e →
      (handle_readings env ((p, angles) :: post) (some text)).2 = .error e ∧
      ((handle_readings env ((p, angles) :: post) (some text)).1.filter
        Event.isMove).length = i + 1 ∧
      (∀ ev ∈ (handle_readings env ((p, angles) :: post) (some text)).1,
        ev.isAudio = false) := by
  intro env text p angles post i e hm htext hi hok hfail
  have hml := moveLoop_fail env angles 0 i e hi
    (fun j hj => by simpa using hok j hj) (by simpa using hfail)
  rcases hmv : moveLoop env 0 angles with ⟨tr0, k0, err0⟩
  rw [hmv] at hml
  have herr : err0 = some e := hml.1
  subst herr
  have hrp : runPhrase env 0 0 angles = (tr0, k0, some e) := by
    rw [runPhrase_eq, hmv]
  have hpl : phraseLoop env 0 0 text ((p, angles) :: post) = (tr0, [], some e) :=
    phraseLoop_cons_err env 0 0 text p angles post tr0 k0 e hm hrp
  have hhr : handle_readings env ((p, angles) :: post) (some text) = (tr0, .error e) :=
    handle_readings_err env ((p, angles) :: post) text tr0 [] e htext hpl
  rw [hhr]
  refine ⟨rfl, hml.2, ?_⟩
  intro ev hev
  exact moveLoop_no_audio env angles 0 ev (by rw [hmv]; exact hev)

/-- Witness for C4: the first move raising aborts the example dispatch
after exactly one issued move. -/
theorem C4_witness :
    (handle_readings envFail cmdsLights (some textLights)).2 = .error "boom" ∧
    ((handle_readings envFail cmdsLights (some textLights)).1.filter
      Event.isMove).length = 0 + 1 :=
  ⟨(C4_move_failure_propagates envFail textLights "lights on" [90, 0] [] 0 "boom"
      (by decide) (by decide) (by decide) (fun j hj => absurd hj (by omega)) rfl).1,
    (C4_move_failure_propagates envFail textLights "lights on" [90, 0] [] 0 "boom"
      (by decide) (by decide) (by decide) (fun j hj => absurd hj (by omega)) rfl).2.1⟩

/-- Claim C5: for every command table and input text, the heard list is
the table's keys, in stored order, filtered by case-insensitive
substring containment of the phrase in the text (no word-boundary
requirement) — the phrase loop is extensionally that filter. -/
theorem C5_match_is_ordered_filter :
    ∀ (cmds : List (String × List ℤ)) (text : String),
      (phraseLoop envOk 0 0 text cmds).2.1 =
        (cmds.map Prod.fst).filter
          (fun p => containsSub (pyLower p) (pyLower text)) := by
  intro cmds text
  exact (phraseLoop_envOk text cmds 0 0).1

/-- Claim C6, counterexample: a configuration whose angle element is the
non-numeric protobuf value `"hello"` passes validation (its
`number_value` reads as 0) and is stored as angle 0 — validation does
not fail on non-numeric elements. -/
theorem C6_cex :
    validate_config cfgNonNum = .ok (["s", "v"], []) ∧
    parse_commands cfgNonNum = [("x", [0])] :=
  ⟨rfl, by decide⟩

/-- Claim C6 (amended): after successful validation, every angle stored
by reconfiguration is an integer in [0,180]; and whenever some element's
`number_value` lies outside [0,180], validation fails with a
configuration error (non-numeric elements are read as 0 and pass). -/
theorem C6_validation_bounds :
    (∀ (cfg : ComponentConfig) (deps : List String × List String),
      validate_config cfg = .ok deps →
      ∀ p as, (p, as) ∈ parse_commands cfg → ∀ a ∈ as, 0 ≤ a ∧ a ≤ 180) ∧
    (∀ cfg : ComponentConfig,
      (getField cfg "sensor").isNone = false →
      (getField cfg "servo").isNone = false →
      (getField cfg "commands").isNone = false →
      (∃ pv ∈ ((getField cfg "commands").getD .nullValue).struct_value,
        ∃ av ∈ pv.2.list_value,
          ¬ (0 ≤ av.number_value ∧ av.number_value ≤ 180)) →
      ∃ e, validate_config cfg = .error e) := by
  constructor
  · intro cfg deps h p as hmem a ha
    have hvc := validate_config_ok_inv cfg deps h
    have hall := (validateCommands_ok_iff _).mp hvc
    unfold parse_commands at hmem
    rw [List.mem_map] at hmem
    obtain ⟨pv, hpv, heq⟩ := hmem
    have has : as = pv.2.list_value.map (fun av => pyInt av.number_value) := by
      have hsnd := congrArg Prod.snd heq
      simpa using hsnd.symm
    rw [has, List.mem_map] at ha
    obtain ⟨av, hav, haeq⟩ := ha
    have hbound := (hall pv hpv).2 av hav
    rw [← haeq]
    exact pyInt_mem_range av.number_value hbound.1 hbound.2
  · intro cfg h1 h2 h3 hbad
    have hne : validateCommands
        ((getField cfg "commands").getD .nullValue).struct_value ≠ .ok () := by
      rw [Ne, validateCommands_ok_iff]
      intro hall
      obtain ⟨pv, hpv, av, hav, hP⟩ := hbad
      exact hP ((hall pv hpv).2 av hav)
    cases hvc : validateCommands
        ((getField cfg "commands").getD .nullValue).struct_value with
    | ok u => cases u; exact absurd hvc hne
    | error e =>
      refine ⟨e, ?_⟩
      simp only [validate_config, h1, h2, h3, Bool.false_eq_true, if_false, hvc]

/-- Witness for the amended C6 theorem: the example configuration's
stored angle 90 is in range, and the out-of-range configuration
(angle 200) fails validation. -/
theorem C6_witness :
    (0 ≤ (90 : ℤ) ∧ (90 : ℤ) ≤ 180) ∧
    (∃ e, validate_config cfgBad = .error e) := by
  constructor
  · have hpc : parse_commands cfgLights = [("lights on", [90, 0])] := by decide
    exact C6_validation_bounds.1 cfgLights (["s", "v"], []) rfl "lights on" [90, 0]
      (by rw [hpc]; exact List.mem_singleton.mpr rfl) 90 (by decide)
  · refine C6_validation_bounds.2 cfgBad rfl rfl rfl ?_
    refine ⟨("x", PbValue.listValue [PbValue.numberValue 200]), ?_,
      PbValue.numberValue 200, ?_, ?_⟩
    · have hcs : ((getField cfgBad "commands").getD PbValue.nullValue).struct_value =
          [("x", PbValue.listValue [PbValue.numberValue 200])] := rfl
      rw [hcs]
      exact List.mem_singleton.mpr rfl
    · exact List.mem_singleton.mpr rfl
    · intro hcon
      have h200 := hcon.2
      norm_num [PbValue.number_value] at h200

/-- Claim C7: audio failures are contained — whatever the outcomes of
the two audio subprocesses, the dispatch result (status, matched list,
heard text) and the servo-move events are identical to the all-success
run, the dispatch still returns a result (never an audio exception),
and a failing volume step yields the structured
`{status: "error", message}` dict with the asset never played. -/
theorem C7_audio_failure_contained :
    ∀ (vol pl : Nat → Except String Unit) (cmds : List (String × List ℤ))
      (text : String),
      (handle_readings (envAudio vol pl) cmds (some text)).2 =
        (handle_readings envOk cmds (some text)).2 ∧
      ((handle_readings (envAudio vol pl) cmds (some text)).1.filter Event.isMove =
        (handle_readings envOk cmds (some text)).1.filter Event.isMove) ∧
      (∃ r, (handle_readings (envAudio vol pl) cmds (some text)).2 = .ok r) ∧
      (∀ j e, vol j = .error e →
        (play_sound (envAudio vol pl) j).2 = ⟨"error", "Command failed: " ++ e⟩ ∧
        (play_sound (envAudio vol pl) j).1 = [.setVolume]) := by
  intro vol pl cmds text
  have hmv : (envAudio vol pl).move = envOk.move := rfl
  have hplay : ∀ j e, vol j = .error e →
      (play_sound (envAudio vol pl) j).2 = ⟨"error", "Command failed: " ++ e⟩ ∧
      (play_sound (envAudio vol pl) j).1 = [.setVolume] := by
    intro j e he
    have hmix : (envAudio vol pl).amixer j = .error e := he
    have hps : play_sound (envAudio vol pl) j =
        ([.setVolume], ⟨"error", "Command failed: " ++ e⟩) := by
      unfold play_sound
      rw [hmix]
    exact ⟨by rw [hps], by rw [hps]⟩
  by_cases ht : text = ""
  · subst ht
    exact ⟨rfl, rfl, ⟨⟨"no voice command heard", none, none⟩, rfl⟩, hplay⟩
  · have hcong := phraseLoop_congr (envAudio vol pl) envOk hmv text cmds 0 0
    have hok := phraseLoop_envOk text cmds 0 0
    rcases hp1 : phraseLoop (envAudio vol pl) 0 0 text cmds with ⟨tr1, hd1, er1⟩
    rcases hp2 : phraseLoop envOk 0 0 text cmds with ⟨tr2, hd2, er2⟩
    rw [hp1, hp2] at hcong
    rw [hp2] at hok
    have htr : tr1.filter Event.isMove = tr2.filter Event.isMove := hcong.1
    have hhd : hd1 = hd2 := congrArg Prod.fst hcong.2
    have her : er1 = er2 := congrArg Prod.snd hcong.2
    have her2 : er2 = none := hok.2
    subst hhd
    have h1 : handle_readings (envAudio vol pl) cmds (some text) =
        (if hd1.length > 0 then
          (tr1, .ok ⟨"voice commands heard", some hd1, some text⟩)
        else
          (tr1, .ok ⟨"no voice commands heard", none, some text⟩)) :=
      handle_readings_ok _ cmds text tr1 hd1 ht (by rw [hp1, her, her2])
    have h2 : handle_readings envOk cmds (some text) =
        (if hd1.length > 0 then
          (tr2, .ok ⟨"voice commands heard", some hd1, some text⟩)
        else
          (tr2, .ok ⟨"no voice commands heard", none, some text⟩)) :=
      handle_readings_ok _ cmds text tr2 hd1 ht (by rw [hp2, her2])
    by_cases hl : hd1.length > 0
    · rw [h1, h2, if_pos hl, if_pos hl]
      exact ⟨rfl, htr, ⟨_, rfl⟩, hplay⟩
    · rw [h1, h2, if_neg hl, if_neg hl]
      exact ⟨rfl, htr, ⟨_, rfl⟩, hplay⟩

/-- Witness for C7: with the volume step failing on the example
dispatch, the result equals the all-success result and the cue reports
the structured error dict. -/
theorem C7_witness :
    (handle_readings (envAudio volFail okCalls) cmdsLights (some textLights)).2 =
      (handle_readings envOk cmdsLights (some textLights)).2 ∧
    (play_sound (envAudio volFail okCalls) 0).2 =
      ⟨"error", "Command failed: amixer failed"⟩ :=
  ⟨(C7_audio_failure_contained volFail okCalls cmdsLights textLights).1,
    ((C7_audio_failure_contained volFail okCalls cmdsLights textLights).2.2.2
      0 "amixer failed" rfl).1⟩

/-- Claim C8: a dispatch whose evaluated text is `None` or the empty
string short-circuits — the result is the `"no voice command heard"`
mapping with no matched phrase recorded, and the empty trace shows no
servo move or audio action was performed (the matching loop is never
entered). -/
theorem C8_empty_text (env : Env) (cmds : List (String × List ℤ)) :
    handle_readings env cmds none =
      ([], .ok ⟨"no voice command heard", none, none⟩) ∧
    handle_readings env cmds (some "") =
      ([], .ok ⟨"no voice command heard", none, none⟩) :=
  ⟨rfl, rfl⟩

/-- Claim C9, counterexample: a configuration using the empty string as
a phrase key passes validation, the empty phrase is stored, and it
matches an arbitrary input text. -/
theorem C9_cex :
    validate_config cfgEmptyPhrase = .ok (["s", "v"], []) ∧
    parse_commands cfgEmptyPhrase = [("", [90])] ∧
    phraseMatches "" "nothing relevant" = true :=
  ⟨rfl, by decide, by decide⟩

/-- Claim C9 (amended): validation does not reject the empty string as a
phrase key (the string-type check cannot fail on Struct keys), the empty
phrase is stored by reconfiguration, and a stored empty phrase matches
every input text under substring matching. -/
theorem C9_empty_phrase_accepted :
    validate_config cfgEmptyPhrase = .ok (["s", "v"], []) ∧
    parse_commands cfgEmptyPhrase = [("", [90])] ∧
    (∀ text : String, phraseMatches "" text = true) := by
  refine ⟨rfl, by decide, ?_⟩
  intro text
  show containsSub (pyLower "") (pyLower text) = true
  have hnil : pyLower "" = [] := rfl
  rw [hnil]
  exact containsSub_nil (pyLower text)

/-- Claim C10: `do_command` selects its branch by truthiness, not
presence — if `force_command` is truthy the forced text is evaluated;
if it is absent or falsy (for example the empty string) and
`listen_for_command` is truthy, the sensor's `heard` reading is
evaluated instead; and if both are absent or falsy, no result mapping
is returned (`None`). -/
theorem C10_truthiness :
    ∀ (env : Env) (cmds : List (String × List ℤ)) (sh : Option String)
      (req : List (String × PyValue)),
      (truthy (pyGet req "force_command") = true →
        do_command env cmds sh req =
          ((handle_readings env cmds (asReadings (pyGet req "force_command"))).1,
            (handle_readings env cmds
              (asReadings (pyGet req "force_command"))).2.map some)) ∧
      (truthy (pyGet req "force_command") = false →
        truthy (pyGet req "listen_for_command") = true →
        do_command env cmds sh req =
          ((handle_readings env cmds sh).1,
            (handle_readings env cmds sh).2.map some)) ∧
      (truthy (pyGet req "force_command") = false →
        truthy (pyGet req "listen_for_command") = false →
        do_command env cmds sh req = ([], .ok none)) := by
  intro env cmds sh req
  refine ⟨fun hf => ?_, fun hf hl => ?_, fun hf hl => ?_⟩
  · rcases hh : handle_readings env cmds (asReadings (pyGet req "force_command"))
      with ⟨tr, r⟩
    simp [do_command, hf, hh]
  · rcases hh : handle_readings env cmds sh with ⟨tr, r⟩
    simp [do_command, hf, hl, hh]
  · simp [do_command, hf, hl]

/-- Witness for C10: a request with a present-but-falsy `force_command`
(the empty string) and a truthy `listen_for_command` takes the sensor
path. -/
theorem C10_witness :
    do_command envOk cmdsLights (some "hi")
      [("force_command", .str ""), ("listen_for_command", .bool true)] =
      ((handle_readings envOk cmdsLights (some "hi")).1,
        (handle_readings envOk cmdsLights (some "hi")).2.map some) :=
  (C10_truthiness envOk cmdsLights (some "hi")
    [("force_command", .str ""), ("listen_for_command", .bool true)]).2.1
    (by decide) (by decide)

end VoiceServo
